import Mathlib

/-!
Shallow embedding of `make_bed_callibration.py`, a Z-offset calibration
G-code generator for the Anycubic Kobra S1.  Python floats are modelled as
exact rationals, Python `int()` as truncation toward zero, and the two
`ZeroDivisionError` sites of `build` with `Except`.  Output lines are kept
as a structured `Line` type whose `render` function reproduces the exact
text of each f-string of the source.
-/

namespace BedCal

/-- Round a rational to the nearest integer with ties to even: the rounding
mode of Python `round` and of Python float formatting. -/
def rhe (q : ℚ) : ℤ :=
  let f := ⌊q⌋
  if q - (f : ℚ) < 1/2 then f
  else if 1/2 < q - (f : ℚ) then f + 1
  else if f % 2 = 0 then f else f + 1

/-- Python `round(x, 3)`: round to 3 decimal places, ties to even. -/
def round3 (q : ℚ) : ℚ := (rhe (q * 1000) : ℚ) / 1000

/-- Pad a string on the left with zeros up to the given length. -/
def padZeros (len : ℕ) (s : String) : String :=
  String.mk (List.replicate (len - s.length) '0') ++ s

/-- Unsigned decimal digits of the magnitude of `q` rounded to `prec`
decimal places. -/
def fmtDigits (prec : ℕ) (q : ℚ) : String :=
  let n : ℕ := (rhe (|q| * 10 ^ prec)).toNat
  toString (n / 10 ^ prec) ++ "." ++ padZeros prec (toString (n % 10 ^ prec))

/-- Python fixed-point formatting of a float with `prec` decimals. -/
def fmtF (prec : ℕ) (q : ℚ) : String :=
  (if q < 0 then "-" else "") ++ fmtDigits prec q

/-- Python fixed-point formatting with an explicit plus sign on
nonnegative values. -/
def fmtPlus (prec : ℕ) (q : ℚ) : String :=
  (if q < 0 then "-" else "+") ++ fmtDigits prec q

/-- Short float formatter of the source (3 decimals). -/
def f3 (val : ℚ) : String := fmtF 3 val

/-- Python `str()` of a float, a shortest round-trip decimal.  Modelled
exactly for integral values (the only values reached through this field by
the claims); other values use 17 fixed decimals, which round-trips but need
not be shortest. -/
def floatRepr (q : ℚ) : String :=
  if q.den = 1 then toString q.num ++ ".0" else fmtF 17 q

/-- Exact rational value of the IEEE-754 double constant `math.pi`. -/
def mathPi : ℚ := 884279719003555 / 281474976710656

/-- Return filament length (mm) for a straight move of `dist_mm`
(source: `filament_len`, lines 18-20). -/
def filament_len (dist_mm layer_h line_w : ℚ) (mult : ℚ := 1)
    (dia : ℚ := 7/4) : ℚ :=
  dist_mm * line_w * layer_h * mult / (mathPi * (dia / 2) ^ 2)

/-- Euclidean norm `math.hypot` on rationals.  Exact whenever one component
is zero, which covers every call in this program (all segments of the
square path are axis aligned); the diagonal case would be irrational and is
never reached. -/
def hypot (dx dy : ℚ) : ℚ :=
  if dx = 0 then |dy| else if dy = 0 then |dx| else 0

/-- Python `int()` applied to a float: truncation toward zero. -/
def pytrunc (q : ℚ) : ℤ := if q < 0 then -⌊-q⌋ else ⌊q⌋

/-- The configuration dict `cfg` of the source, one field per key.  Counts
and temperatures are integers as produced by the CLI; measurements are
rationals standing for Python floats. -/
structure Config where
  x : ℤ
  y : ℤ
  z_min : ℚ
  z_max : ℚ
  bed : ℤ
  nozzle : ℤ
  size : ℚ
  gap : ℚ
  square_height : ℚ
  layer_height : ℚ
  line_width : ℚ
  mult : ℚ
  print : ℤ
  travel : ℤ
  bed_x : ℤ
  bed_y : ℤ
deriving DecidableEq, Repr

/-- One output line of the generator, as appended to the list `g` in
`build`, with the numeric payload of each formatted line kept explicit.
`render` produces the exact text of the line. -/
inductive Line where
  | raw (s : String)
  | sqComment (idx : ℕ) (tot : ℤ) (zoff : ℚ)
  | lcdMsg (zoff : ℚ)
  | zMove (z : ℚ)
  | travelMove (x y : ℚ) (f : ℤ)
  | extrudeMove (x y e : ℚ) (f : ℤ)
  | resetE
deriving DecidableEq, Repr

/-- Exact text of a line, mirroring the f-strings of the source. -/
def render : Line → String
  | .raw s => s
  | .sqComment idx tot zoff =>
      ";--- Square " ++ toString idx ++ "/" ++ toString tot ++ "  Z="
        ++ fmtPlus 3 zoff ++ " ---"
  | .lcdMsg zoff => "M117 Z " ++ fmtPlus 2 zoff
  | .zMove z => "G1 Z" ++ f3 z ++ " F600"
  | .travelMove x y f => "G1 X" ++ f3 x ++ " Y" ++ f3 y ++ " F" ++ toString f
  | .extrudeMove x y e f =>
      "G1 X" ++ f3 x ++ " Y" ++ f3 y ++ " E" ++ f3 e ++ " F" ++ toString f
  | .resetE => "G92 E0"

/-- Cura-style metadata header (source lines 31-38). -/
def preheader (cfg : Config) : List Line :=
  [ .raw ";FLAVOR:Marlin",
    .raw ";TIME:1",
    .raw ";Filament used: 0.01m",
    .raw (";Layer height:" ++ fmtF 2 cfg.layer_height),
    .raw ";MINX:0 ;MINY:0 ;MINZ:0",
    .raw (";MAXX:" ++ toString cfg.bed_x ++ " ;MAXY:" ++ toString cfg.bed_y
      ++ " ;MAXZ:" ++ floatRepr cfg.square_height) ]

/-- Anycubic header and executable markers (source lines 41-55). -/
def headerBlock (cfg : Config) (now : String) (layers : ℤ) : List Line :=
  [ .raw "; HEADER_BLOCK_START",
    .raw ("; generated " ++ now),
    .raw ("; total layer number: " ++ toString layers),
    .raw "; filament_diameter: 1.75",
    .raw ("; max_z_height: " ++ fmtF 2 cfg.square_height),
    .raw "; HEADER_BLOCK_END",
    .raw "",
    .raw "; EXECUTABLE_BLOCK_START",
    .raw ";TYPE:Custom",
    .raw ("G9111 bedTemp=" ++ toString cfg.bed ++ " extruderTemp="
      ++ toString cfg.nozzle),
    .raw "M117",
    .raw "G90", .raw "G21", .raw "M83",
    .raw "T0" ]

/-- Warm-up and prime block (source lines 58-66). -/
def warmup (cfg : Config) : List Line :=
  [ .raw ("M190 S" ++ toString cfg.bed),
    .raw ("M109 S" ++ toString cfg.nozzle),
    .raw "G28",
    .raw "G1 Z5 F3000",
    .raw "G1 X5 Y5 F6000",
    .raw "G1 Z0.3 F600",
    .raw "G1 E2 F120", .resetE ]

/-- Grid bounding box width (source line 69). -/
def grid_w (cfg : Config) : ℚ :=
  (cfg.x : ℚ) * cfg.size + ((cfg.x : ℚ) - 1) * cfg.gap

/-- Grid bounding box height (source line 70). -/
def grid_h (cfg : Config) : ℚ :=
  (cfg.y : ℚ) * cfg.size + ((cfg.y : ℚ) - 1) * cfg.gap

/-- Centered grid start, X (source line 71). -/
def start_x (cfg : Config) : ℚ := ((cfg.bed_x : ℚ) - grid_w cfg) / 2

/-- Centered grid start, Y (source line 72). -/
def start_y (cfg : Config) : ℚ := ((cfg.bed_y : ℚ) - grid_h cfg) / 2

/-- Number of grid cells (source line 74). -/
def total (cfg : Config) : ℤ := cfg.x * cfg.y

/-- Z offsets per cell in row-major order (source lines 75-76). -/
def z_vals (cfg : Config) : List ℚ :=
  (List.range (total cfg).toNat).map fun (i : ℕ) =>
    round3 (cfg.z_min + (i : ℚ) * (cfg.z_max - cfg.z_min)
      / ((total cfg : ℚ) - 1))

/-- Number of layers (source line 28): Python `int()` truncates toward
zero, and `range` of a negative count is empty. -/
def layersOf (cfg : Config) : ℤ :=
  pytrunc (cfg.square_height / cfg.layer_height)

/-- Corner sequence of one square layer (source lines 94-100). -/
def squarePath (cfg : Config) (ox oy : ℚ) : List (ℚ × ℚ) :=
  [(ox, oy), (ox + cfg.size, oy), (ox + cfg.size, oy + cfg.size),
   (ox, oy + cfg.size), (ox, oy)]

/-- Extruding moves along the tail of the path, carrying the previous
corner as state (source lines 104-108). -/
def extrudeMoves (cfg : Config) (px py : ℚ) : List (ℚ × ℚ) → List Line
  | [] => []
  | (x, y) :: rest =>
      let dist := hypot (x - px) (y - py)
      let e := filament_len dist cfg.layer_height cfg.line_width cfg.mult
      Line.extrudeMove x y e (cfg.print * 60) :: extrudeMoves cfg x y rest

/-- Lines of one layer of one square (body of the loop at source lines
90-109): Z move, travel to the first corner, four extruding edges, then
the per-layer extrusion reset. -/
def layerLines (cfg : Config) (ox oy z_off : ℚ) (ly : ℕ) : List Line :=
  let z := ((ly : ℚ) + 1) * cfg.layer_height + z_off
  let path := squarePath cfg ox oy
  Line.zMove z
    :: Line.travelMove ox oy (cfg.travel * 60)
    :: (extrudeMoves cfg ox oy path.tail ++ [Line.resetE])

/-- Lines of one grid cell (source lines 82-109).  The source increments
`idx` before the comment line, so the comment shows `idx + 1` while the
offset uses the pre-increment row-major index. -/
def cellLines (cfg : Config) (row col : ℕ) : List Line :=
  let idx := row * cfg.x.toNat + col
  let z_off := (z_vals cfg).getD idx 0
  let ox := start_x cfg + (col : ℚ) * (cfg.size + cfg.gap)
  let oy := start_y cfg + (row : ℚ) * (cfg.size + cfg.gap)
  Line.sqComment (idx + 1) (total cfg) z_off
    :: Line.lcdMsg z_off
    :: (List.range (layersOf cfg).toNat).flatMap (layerLines cfg ox oy z_off)

/-- All grid cells in row-major order (source lines 79-109). -/
def cells (cfg : Config) : List Line :=
  (List.range cfg.y.toNat).flatMap fun row =>
    (List.range cfg.x.toNat).flatMap fun col => cellLines cfg row col

/-- End G-code block (source lines 112-123). -/
def footer : List Line :=
  [ .raw "G1 Z20 F900",
    .resetE,
    .raw "G1 E-2 F3000",
    .raw "G1 F12000",
    .raw "G1 X44",
    .raw "G1 Y270",
    .raw "M140 S0", .raw "M104 S0",
    .raw "M106 P1 S0", .raw "M106 P2 S0", .raw "M106 P3 S0",
    .raw "M84",
    .raw "; EXECUTABLE_BLOCK_END" ]

/-- Full line list of `build` for a configuration that raises no
exception. -/
def buildLines (cfg : Config) (now : String) : List Line :=
  preheader cfg ++ headerBlock cfg now (layersOf cfg) ++ warmup cfg
    ++ cells cfg ++ footer

/-- The generator `build` (source lines 26-127).  The two Python
`ZeroDivisionError` sites are modelled with `Except`: float division by a
zero layer height at line 28, and the offset-interpolation divisor
`total - 1` at line 75, which is executed whenever `range(total)` is
nonempty, hence divides by zero exactly when `total = 1`.  The wall-clock
timestamp read by `datetime.now()` is an explicit input `now`. -/
def build (cfg : Config) (now : String) : Except String (List Line) :=
  if cfg.layer_height = 0 then
    .error "ZeroDivisionError: float division by zero"
  else if total cfg = 1 then
    .error "ZeroDivisionError: float division by zero"
  else
    .ok (buildLines cfg now)

/-- Text artifact: the lines joined with single newline characters
(source line 126). -/
def outputText (cfg : Config) (now : String) : Except String String :=
  (build cfg now).map fun g => String.intercalate "\n" (g.map render)

/-- Recognizer for extruding toolpath moves. -/
def isExtrudeLine : Line → Bool
  | .extrudeMove _ _ _ _ => true
  | _ => false

/-- Recognizer for non-extruding travel moves. -/
def isTravelLine : Line → Bool
  | .travelMove _ _ _ => true
  | _ => false

/-- Number of extruding toolpath moves in a line list. -/
def countExtrude (g : List Line) : ℕ := g.countP isExtrudeLine

/-- Number of travel moves in a line list. -/
def countTravel (g : List Line) : ℕ := g.countP isTravelLine

/-- Specified shape of one layer block, written from the spec wording: the
layer prints at height (ly + 1) * layer_height + z_off, travels to the
square origin at the travel feedrate, draws the four edges of the square in
the fixed corner order at the print feedrate, each edge extruding the
filament length of its own segment (every segment of the square has length
the absolute value of the square size), then resets the extrusion
counter. -/
def layerSpec (cfg : Config) (ox oy z_off : ℚ) (ly : ℕ) : List Line :=
  let e := filament_len |cfg.size| cfg.layer_height cfg.line_width cfg.mult
  [Line.zMove (((ly : ℚ) + 1) * cfg.layer_height + z_off),
   Line.travelMove ox oy (cfg.travel * 60),
   Line.extrudeMove (ox + cfg.size) oy e (cfg.print * 60),
   Line.extrudeMove (ox + cfg.size) (oy + cfg.size) e (cfg.print * 60),
   Line.extrudeMove ox (oy + cfg.size) e (cfg.print * 60),
   Line.extrudeMove ox oy e (cfg.print * 60),
   Line.resetE]

/-- The default configuration of the CLI (source lines 136-152). -/
def cfgDefault : Config :=
  { x := 4, y := 3, z_min := -3/10, z_max := 0, bed := 60, nozzle := 215,
    size := 20, gap := 5, square_height := 1, layer_height := 1/5,
    line_width := 2/5, mult := 1, print := 20, travel := 150,
    bed_x := 250, bed_y := 250 }

/-- A single-cell configuration (columns = rows = 1). -/
def cfgSingle : Config :=
  { x := 1, y := 1, z_min := -3/10, z_max := 0, bed := 60, nozzle := 215,
    size := 20, gap := 5, square_height := 1, layer_height := 1/5,
    line_width := 2/5, mult := 1, print := 20, travel := 150,
    bed_x := 250, bed_y := 250 }

/-- A configuration whose layer count truncates to zero: layer height 2
against square height 1. -/
def cfgZeroLayers : Config :=
  { x := 2, y := 1, z_min := -3/10, z_max := 0, bed := 60, nozzle := 215,
    size := 20, gap := 5, square_height := 1, layer_height := 2,
    line_width := 2/5, mult := 1, print := 20, travel := 150,
    bed_x := 250, bed_y := 250 }

/-! ## Helper lemmas -/

/-- The hypot of a horizontal displacement is its absolute value. -/
theorem hypot_axis_x (dx : ℚ) : hypot dx 0 = |dx| := by
  unfold hypot
  split_ifs with h h2
  · simp [h]
  · rfl
  · exact absurd rfl h2

/-- The hypot of a vertical displacement is its absolute value. -/
theorem hypot_axis_y (dy : ℚ) : hypot 0 dy = |dy| := by
  simp [hypot]

/-- Every layer block of the emitter computes to the specified seven-line
shape. -/
theorem layerLines_eq_layerSpec (cfg : Config) (ox oy z_off : ℚ) (ly : ℕ) :
    layerLines cfg ox oy z_off ly = layerSpec cfg ox oy z_off ly := by
  simp only [layerLines, layerSpec, squarePath, List.tail_cons, extrudeMoves,
    add_sub_cancel_left, sub_self, sub_add_cancel_left, hypot_axis_x,
    hypot_axis_y, abs_neg, List.cons_append, List.nil_append]

/-- The extruder loop emits one move per remaining path point, and the
extrusion amount of each move is the filament length of the segment from
the previous point to that point alone: the loop carries no running
extrusion total. -/
theorem extrudeMoves_eq_zip (cfg : Config) :
    ∀ (pts : List (ℚ × ℚ)) (px py : ℚ),
      extrudeMoves cfg px py pts
        = (((px, py) :: pts).zip pts).map fun pq =>
            Line.extrudeMove pq.2.1 pq.2.2
              (filament_len (hypot (pq.2.1 - pq.1.1) (pq.2.2 - pq.1.2))
                cfg.layer_height cfg.line_width cfg.mult)
              (cfg.print * 60) := by
  intro pts
  induction pts with
  | nil => intro px py; rfl
  | cons q rest ih =>
      intro px py
      obtain ⟨x, y⟩ := q
      simp only [extrudeMoves, List.zip_cons_cons, List.map_cons]
      rw [ih x y]

/-- Round-half-even never exceeds the floor by more than one. -/
theorem rhe_le_floor_add_one (q : ℚ) : rhe q ≤ ⌊q⌋ + 1 := by
  simp only [rhe]
  split_ifs <;> omega

/-- Round-half-even is at least the floor. -/
theorem floor_le_rhe (q : ℚ) : ⌊q⌋ ≤ rhe q := by
  simp only [rhe]
  split_ifs <;> omega

/-- Round-half-even is monotone. -/
theorem rhe_le_rhe {a b : ℚ} (h : a ≤ b) : rhe a ≤ rhe b := by
  rcases lt_or_eq_of_le (Int.floor_le_floor h) with hf | hf
  · calc rhe a ≤ ⌊a⌋ + 1 := rhe_le_floor_add_one a
      _ ≤ ⌊b⌋ := by omega
      _ ≤ rhe b := floor_le_rhe b
  · simp only [rhe, ← hf]
    split_ifs <;> first | omega | (exfalso; linarith)

/-- Rounding to three decimals is monotone. -/
theorem round3_le_round3 {a b : ℚ} (h : a ≤ b) : round3 a ≤ round3 b := by
  unfold round3
  have h1 : rhe (a * 1000) ≤ rhe (b * 1000) := rhe_le_rhe (by linarith)
  have h2 : ((rhe (a * 1000) : ℤ) : ℚ) ≤ ((rhe (b * 1000) : ℤ) : ℚ) := by
    exact_mod_cast h1
  linarith

/-- Value of the offset list at an in-range row-major index. -/
theorem z_vals_getD (cfg : Config) (i : ℕ) (hi : i < (total cfg).toNat) :
    (z_vals cfg).getD i 0
      = round3 (cfg.z_min + (i : ℚ) * (cfg.z_max - cfg.z_min)
          / ((total cfg : ℚ) - 1)) := by
  unfold z_vals
  rw [List.getD_eq_getElem?_getD, List.getElem?_map, List.getElem?_range hi]
  rfl

/-- Cast of the last row-major index to the rationals. -/
theorem total_cast (cfg : Config) (h2 : 2 ≤ total cfg) :
    (((total cfg).toNat - 1 : ℕ) : ℚ) = (total cfg : ℚ) - 1 := by
  have h1 : 1 ≤ (total cfg).toNat := by omega
  have hnat : ((total cfg).toNat : ℤ) = total cfg :=
    Int.toNat_of_nonneg (by omega)
  rw [Nat.cast_sub h1]
  have h3 : (((total cfg).toNat : ℤ) : ℚ) = ((total cfg : ℤ) : ℚ) := by
    exact_mod_cast hnat
  push_cast at h3
  rw [h3]
  norm_num

/-- Sum of a constant-valued map. -/
theorem sum_map_const {β : Type} (l : List β) (c : ℕ) :
    (l.map fun _ => c).sum = l.length * c := by
  induction l with
  | nil => simp
  | cons a l ih => simp [ih, Nat.succ_mul, Nat.add_comm]

/-- Counting over a flat map is the sum of the per-element counts. -/
theorem countP_flatMap {α β : Type} (p : α → Bool) (f : β → List α)
    (l : List β) :
    (l.flatMap f).countP p = (l.map fun b => (f b).countP p).sum := by
  induction l with
  | nil => rfl
  | cons a l ih => simp [List.flatMap_cons, List.countP_append, ih]

/-- countExtrude distributes over append. -/
theorem countExtrude_append (l1 l2 : List Line) :
    countExtrude (l1 ++ l2) = countExtrude l1 + countExtrude l2 := by
  simp [countExtrude, List.countP_append]

/-- countTravel distributes over append. -/
theorem countTravel_append (l1 l2 : List Line) :
    countTravel (l1 ++ l2) = countTravel l1 + countTravel l2 := by
  simp [countTravel, List.countP_append]

/-- countExtrude over a flat map. -/
theorem countExtrude_flatMap {β : Type} (f : β → List Line) (l : List β) :
    countExtrude (l.flatMap f) = (l.map fun b => countExtrude (f b)).sum :=
  countP_flatMap isExtrudeLine f l

/-- countTravel over a flat map. -/
theorem countTravel_flatMap {β : Type} (f : β → List Line) (l : List β) :
    countTravel (l.flatMap f) = (l.map fun b => countTravel (f b)).sum :=
  countP_flatMap isTravelLine f l

/-- The square comment line changes neither move count. -/
theorem countExtrude_cons_sqComment (idx : ℕ) (tot : ℤ) (zoff : ℚ)
    (l : List Line) :
    countExtrude (Line.sqComment idx tot zoff :: l) = countExtrude l := rfl

/-- The LCD message line changes neither move count. -/
theorem countExtrude_cons_lcdMsg (zoff : ℚ) (l : List Line) :
    countExtrude (Line.lcdMsg zoff :: l) = countExtrude l := rfl

/-- The square comment line does not change the travel count. -/
theorem countTravel_cons_sqComment (idx : ℕ) (tot : ℤ) (zoff : ℚ)
    (l : List Line) :
    countTravel (Line.sqComment idx tot zoff :: l) = countTravel l := rfl

/-- The LCD message line does not change the travel count. -/
theorem countTravel_cons_lcdMsg (zoff : ℚ) (l : List Line) :
    countTravel (Line.lcdMsg zoff :: l) = countTravel l := rfl

/-- Each layer block holds exactly four extruding moves. -/
theorem countExtrude_layerLines (cfg : Config) (ox oy z_off : ℚ) (ly : ℕ) :
    countExtrude (layerLines cfg ox oy z_off ly) = 4 := by
  rw [layerLines_eq_layerSpec]
  rfl

/-- Each layer block holds exactly one travel move. -/
theorem countTravel_layerLines (cfg : Config) (ox oy z_off : ℚ) (ly : ℕ) :
    countTravel (layerLines cfg ox oy z_off ly) = 1 := by
  rw [layerLines_eq_layerSpec]
  rfl

/-- Extruding moves per cell: four per layer. -/
theorem countExtrude_cellLines (cfg : Config) (row col : ℕ) :
    countExtrude (cellLines cfg row col) = (layersOf cfg).toNat * 4 := by
  simp only [cellLines]
  rw [countExtrude_cons_sqComment, countExtrude_cons_lcdMsg,
    countExtrude_flatMap]
  have h : (List.range (layersOf cfg).toNat).map
        (fun ly => countExtrude (layerLines cfg
          (start_x cfg + (col : ℚ) * (cfg.size + cfg.gap))
          (start_y cfg + (row : ℚ) * (cfg.size + cfg.gap))
          ((z_vals cfg).getD (row * cfg.x.toNat + col) 0) ly))
      = (List.range (layersOf cfg).toNat).map fun _ => 4 := by
    apply List.map_congr_left
    intro ly _
    exact countExtrude_layerLines cfg _ _ _ ly
  rw [h, sum_map_const, List.length_range]

/-- Travel moves per cell: one per layer. -/
theorem countTravel_cellLines (cfg : Config) (row col : ℕ) :
    countTravel (cellLines cfg row col) = (layersOf cfg).toNat := by
  simp only [cellLines]
  rw [countTravel_cons_sqComment, countTravel_cons_lcdMsg,
    countTravel_flatMap]
  have h : (List.range (layersOf cfg).toNat).map
        (fun ly => countTravel (layerLines cfg
          (start_x cfg + (col : ℚ) * (cfg.size + cfg.gap))
          (start_y cfg + (row : ℚ) * (cfg.size + cfg.gap))
          ((z_vals cfg).getD (row * cfg.x.toNat + col) 0) ly))
      = (List.range (layersOf cfg).toNat).map fun _ => 1 := by
    apply List.map_congr_left
    intro ly _
    exact countTravel_layerLines cfg _ _ _ ly
  rw [h, sum_map_const, List.length_range, Nat.mul_one]

/-- Extruding moves over the whole grid. -/
theorem countExtrude_cells (cfg : Config) :
    countExtrude (cells cfg)
      = cfg.y.toNat * (cfg.x.toNat * ((layersOf cfg).toNat * 4)) := by
  unfold cells
  rw [countExtrude_flatMap]
  have h1 : (List.range cfg.y.toNat).map
        (fun row => countExtrude ((List.range cfg.x.toNat).flatMap
          fun col => cellLines cfg row col))
      = (List.range cfg.y.toNat).map
          fun _ => cfg.x.toNat * ((layersOf cfg).toNat * 4) := by
    apply List.map_congr_left
    intro row _
    rw [countExtrude_flatMap]
    have h2 : (List.range cfg.x.toNat).map
          (fun col => countExtrude (cellLines cfg row col))
        = (List.range cfg.x.toNat).map
            fun _ => (layersOf cfg).toNat * 4 := by
      apply List.map_congr_left
      intro col _
      exact countExtrude_cellLines cfg row col
    rw [h2, sum_map_const, List.length_range]
  rw [h1, sum_map_const, List.length_range]

/-- Travel moves over the whole grid. -/
theorem countTravel_cells (cfg : Config) :
    countTravel (cells cfg)
      = cfg.y.toNat * (cfg.x.toNat * (layersOf cfg).toNat) := by
  unfold cells
  rw [countTravel_flatMap]
  have h1 : (List.range cfg.y.toNat).map
        (fun row => countTravel ((List.range cfg.x.toNat).flatMap
          fun col => cellLines cfg row col))
      = (List.range cfg.y.toNat).map
          fun _ => cfg.x.toNat * (layersOf cfg).toNat := by
    apply List.map_congr_left
    intro row _
    rw [countTravel_flatMap]
    have h2 : (List.range cfg.x.toNat).map
          (fun col => countTravel (cellLines cfg row col))
        = (List.range cfg.x.toNat).map fun _ => (layersOf cfg).toNat := by
      apply List.map_congr_left
      intro col _
      exact countTravel_cellLines cfg row col
    rw [h2, sum_map_const, List.length_range]
  rw [h1, sum_map_const, List.length_range]

/-- Extruding moves in the complete artifact. -/
theorem countExtrude_buildLines (cfg : Config) (now : String) :
    countExtrude (buildLines cfg now)
      = cfg.y.toNat * (cfg.x.toNat * ((layersOf cfg).toNat * 4)) := by
  unfold buildLines
  rw [countExtrude_append, countExtrude_append, countExtrude_append,
    countExtrude_append, countExtrude_cells]
  have h1 : countExtrude (preheader cfg) = 0 := rfl
  have h2 : countExtrude (headerBlock cfg now (layersOf cfg)) = 0 := rfl
  have h3 : countExtrude (warmup cfg) = 0 := rfl
  have h4 : countExtrude footer = 0 := rfl
  omega

/-- Travel moves in the complete artifact. -/
theorem countTravel_buildLines (cfg : Config) (now : String) :
    countTravel (buildLines cfg now)
      = cfg.y.toNat * (cfg.x.toNat * (layersOf cfg).toNat) := by
  unfold buildLines
  rw [countTravel_append, countTravel_append, countTravel_append,
    countTravel_append, countTravel_cells]
  have h1 : countTravel (preheader cfg) = 0 := rfl
  have h2 : countTravel (headerBlock cfg now (layersOf cfg)) = 0 := rfl
  have h3 : countTravel (warmup cfg) = 0 := rfl
  have h4 : countTravel footer = 0 := rfl
  omega

/-- A successful build returns exactly the buildLines list. -/
theorem build_ok_inv {cfg : Config} {now : String} {g : List Line}
    (hg : build cfg now = .ok g) : g = buildLines cfg now := by
  unfold build at hg
  by_cases hl : cfg.layer_height = 0
  · rw [if_pos hl] at hg
    exact absurd hg (by simp)
  · rw [if_neg hl] at hg
    by_cases ht : total cfg = 1
    · rw [if_pos ht] at hg
      exact absurd hg (by simp)
    · rw [if_neg ht] at hg
      injection hg with h
      exact h.symm

/-! ## Claim theorems -/

/-- C5: for every straight segment the emitted extrusion length equals
segment_length * line_width * layer_height * extrusion_multiplier divided
by (pi * (filament_diameter / 2) ^ 2), with pi the math.pi constant of the
source; consequently, with layer height, line width and multiplier fixed,
extrusion length is strictly proportional to segment length: doubling the
segment length doubles the extrusion length, exactly in this model. -/
theorem C5_extrusion_model (dist_mm layer_h line_w mult dia : ℚ) :
    filament_len dist_mm layer_h line_w mult dia
      = dist_mm * line_w * layer_h * mult / (mathPi * (dia / 2) ^ 2)
    ∧ filament_len (2 * dist_mm) layer_h line_w mult dia
      = 2 * filament_len dist_mm layer_h line_w mult dia := by
  constructor
  · rfl
  · unfold filament_len
    ring

/-- C6: for every cell origin (ox, oy), Z offset z_off and layer index ly,
the emitted layer block prints at absolute height
(ly + 1) * layer_height + z_off, traverses the closed rectangle
(ox, oy), (ox + size, oy), (ox + size, oy + size), (ox, oy + size),
(ox, oy) in this fixed order on every layer, reaching the first point by a
non-extruding travel move at the travel feedrate and each subsequent point
by an extruding move at the print feedrate. -/
theorem C6_layer_toolpath (cfg : Config) (ox oy z_off : ℚ) (ly : ℕ) :
    layerLines cfg ox oy z_off ly = layerSpec cfg ox oy z_off ly :=
  layerLines_eq_layerSpec cfg ox oy z_off ly

/-- C7: the computed grid start positions satisfy the centering formula
start = (bed_dimension - grid_dimension) / 2 with grid width
columns * square_size + (columns - 1) * spacing, hence the grid bounding
box is symmetric about the bed center on both axes. -/
theorem C7_grid_centering (cfg : Config) :
    grid_w cfg = (cfg.x : ℚ) * cfg.size + ((cfg.x : ℚ) - 1) * cfg.gap
    ∧ start_x cfg = ((cfg.bed_x : ℚ) - grid_w cfg) / 2
    ∧ start_x cfg = (cfg.bed_x : ℚ) - (start_x cfg + grid_w cfg)
    ∧ start_y cfg = (cfg.bed_y : ℚ) - (start_y cfg + grid_h cfg) := by
  refine ⟨rfl, rfl, ?_, ?_⟩
  · unfold start_x
    ring
  · unfold start_y
    ring

/-- C9: the generator emits the relative extrusion mode command M83 in its
setup block; every extruding move carries an extrusion amount computed from
its own segment alone, never a running total across segments or layers;
and the extrusion reset line G92 E0 ends every layer block, immediately
after the four edges. -/
theorem C9_relative_extrusion (cfg : Config) (now : String) :
    Line.raw "M83" ∈ headerBlock cfg now (layersOf cfg)
    ∧ Line.raw "M83" ∈ buildLines cfg now
    ∧ (∀ (pts : List (ℚ × ℚ)) (px py : ℚ),
        extrudeMoves cfg px py pts
          = (((px, py) :: pts).zip pts).map fun pq =>
              Line.extrudeMove pq.2.1 pq.2.2
                (filament_len (hypot (pq.2.1 - pq.1.1) (pq.2.2 - pq.1.2))
                  cfg.layer_height cfg.line_width cfg.mult)
                (cfg.print * 60))
    ∧ (∀ (ox oy z_off : ℚ) (ly : ℕ),
        layerLines cfg ox oy z_off ly = layerSpec cfg ox oy z_off ly) := by
  refine ⟨?_, ?_, extrudeMoves_eq_zip cfg, fun ox oy z_off ly =>
    layerLines_eq_layerSpec cfg ox oy z_off ly⟩
  · simp [headerBlock]
  · simp [buildLines, headerBlock]

/-- C3: a single-cell grid makes the offset interpolation divide by zero;
the code raises the bare Python ZeroDivisionError instead of a
configuration error naming the violated constraint, and produces no
output artifact. -/
theorem C3_single_cell_division_by_zero (now : String) :
    total cfgSingle = 1
    ∧ build cfgSingle now
        = .error "ZeroDivisionError: float division by zero" := by
  constructor
  · with_unfolding_all decide
  · with_unfolding_all rfl

/-- C8: with square height 1 and layer height 2 the layer count truncates
to zero; the generator does not fail fast with a configuration error but
silently completes, returning a full artifact that contains not a single
toolpath move. -/
theorem C8_zero_layers_silent (now : String) :
    layersOf cfgZeroLayers = 0
    ∧ build cfgZeroLayers now = .ok (buildLines cfgZeroLayers now)
    ∧ countExtrude (buildLines cfgZeroLayers now) = 0
    ∧ countTravel (buildLines cfgZeroLayers now) = 0 := by
  refine ⟨by with_unfolding_all decide, by with_unfolding_all rfl,
    by with_unfolding_all rfl, by with_unfolding_all rfl⟩

set_option maxRecDepth 100000 in
/-- C4 counterexample: the claim that two invocations with identical
configuration values always produce byte-identical output text fails,
because the header embeds the generation timestamp read from the wall
clock: the same configuration generated at two instants one second apart
yields different text. -/
theorem C4_counterexample :
    outputText cfgZeroLayers "2025-01-01 00:00:00"
      ≠ outputText cfgZeroLayers "2025-01-01 00:00:01" := by
  intro h
  have hA : outputText cfgZeroLayers "2025-01-01 00:00:00"
      = .ok (String.intercalate "\n"
          ((buildLines cfgZeroLayers "2025-01-01 00:00:00").map render)) := by
    with_unfolding_all rfl
  have hB : outputText cfgZeroLayers "2025-01-01 00:00:01"
      = .ok (String.intercalate "\n"
          ((buildLines cfgZeroLayers "2025-01-01 00:00:01").map render)) := by
    with_unfolding_all rfl
  rw [hA, hB] at h
  have h2 : String.intercalate "\n"
        ((buildLines cfgZeroLayers "2025-01-01 00:00:00").map render)
      = String.intercalate "\n"
        ((buildLines cfgZeroLayers "2025-01-01 00:00:01").map render) := by
    injection h
  revert h2
  with_unfolding_all decide

/-- C4 amended: generation is a pure function of the configuration and the
timestamp; two runs over the same configuration differ at most in the
timestamp header comment at line index 7, so erasing that line leaves
byte-identical line lists, and equal timestamps give identical output. -/
theorem C4_deterministic_modulo_timestamp (cfg : Config) (t1 t2 : String)
    (g1 g2 : List Line) (h1 : build cfg t1 = .ok g1)
    (h2 : build cfg t2 = .ok g2) :
    g1.eraseIdx 7 = g2.eraseIdx 7 ∧ (t1 = t2 → g1 = g2) := by
  unfold build at h1 h2
  by_cases hl : cfg.layer_height = 0
  · rw [if_pos hl] at h1
    exact absurd h1 (by simp)
  · rw [if_neg hl] at h1 h2
    by_cases ht : total cfg = 1
    · rw [if_pos ht] at h1
      exact absurd h1 (by simp)
    · rw [if_neg ht] at h1 h2
      obtain rfl : g1 = buildLines cfg t1 := by
        injection h1 with h
        exact h.symm
      obtain rfl : g2 = buildLines cfg t2 := by
        injection h2 with h
        exact h.symm
      exact ⟨rfl, fun h => by rw [h]⟩

/-- C4 witness: at the default configuration the amended statement holds at
two concrete timestamps. -/
theorem C4_deterministic_witness :
    (buildLines cfgDefault "A").eraseIdx 7
        = (buildLines cfgDefault "B").eraseIdx 7
    ∧ ("A" = "B" →
        buildLines cfgDefault "A" = buildLines cfgDefault "B") :=
  C4_deterministic_modulo_timestamp cfgDefault "A" "B"
    (buildLines cfgDefault "A") (buildLines cfgDefault "B")
    (by with_unfolding_all rfl) (by with_unfolding_all rfl)

/-- C1: with at least two cells, the Z offset at row-major index i equals
z_min + i * (z_max - z_min) / (cell_count - 1) rounded to three decimals;
the sequence is monotonically non-decreasing when z_min is at most z_max
and non-increasing otherwise, and its first and last elements are z_min
and z_max after rounding. -/
theorem C1_offset_schedule (cfg : Config) (h2 : 2 ≤ total cfg) :
    (z_vals cfg).length = (total cfg).toNat
    ∧ (∀ i : ℕ, i < (total cfg).toNat →
        (z_vals cfg).getD i 0
          = round3 (cfg.z_min + (i : ℚ) * (cfg.z_max - cfg.z_min)
              / ((total cfg : ℚ) - 1)))
    ∧ (cfg.z_min ≤ cfg.z_max → ∀ i j : ℕ, i ≤ j → j < (total cfg).toNat →
        (z_vals cfg).getD i 0 ≤ (z_vals cfg).getD j 0)
    ∧ (cfg.z_max ≤ cfg.z_min → ∀ i j : ℕ, i ≤ j → j < (total cfg).toNat →
        (z_vals cfg).getD j 0 ≤ (z_vals cfg).getD i 0)
    ∧ (z_vals cfg).getD 0 0 = round3 cfg.z_min
    ∧ (z_vals cfg).getD ((total cfg).toNat - 1) 0 = round3 cfg.z_max := by
  have hTq : (2 : ℚ) ≤ (total cfg : ℚ) := by exact_mod_cast h2
  refine ⟨by simp [z_vals], fun i hi => z_vals_getD cfg i hi, ?_, ?_, ?_, ?_⟩
  · intro hz i j hij hj
    have hi : i < (total cfg).toNat := lt_of_le_of_lt hij hj
    rw [z_vals_getD cfg i hi, z_vals_getD cfg j hj]
    apply round3_le_round3
    have hij2 : (i : ℚ) ≤ (j : ℚ) := by exact_mod_cast hij
    have hK : 0 ≤ (cfg.z_max - cfg.z_min) / ((total cfg : ℚ) - 1) :=
      div_nonneg (by linarith) (by linarith)
    rw [mul_div_assoc, mul_div_assoc]
    have := mul_le_mul_of_nonneg_right hij2 hK
    linarith
  · intro hz i j hij hj
    have hi : i < (total cfg).toNat := lt_of_le_of_lt hij hj
    rw [z_vals_getD cfg i hi, z_vals_getD cfg j hj]
    apply round3_le_round3
    have hij2 : (i : ℚ) ≤ (j : ℚ) := by exact_mod_cast hij
    have hK : (cfg.z_max - cfg.z_min) / ((total cfg : ℚ) - 1) ≤ 0 :=
      div_nonpos_of_nonpos_of_nonneg (by linarith) (by linarith)
    rw [mul_div_assoc, mul_div_assoc]
    have := mul_le_mul_of_nonpos_right hij2 hK
    linarith
  · rw [z_vals_getD cfg 0 (by omega)]
    norm_num
  · rw [z_vals_getD cfg _ (by omega), total_cast cfg h2]
    have hne : (total cfg : ℚ) - 1 ≠ 0 := by linarith
    rw [mul_div_cancel_left₀ _ hne]
    have h4 : cfg.z_min + (cfg.z_max - cfg.z_min) = cfg.z_max := by ring
    rw [h4]

/-- C1 witness: the offset schedule property evaluated at the default
configuration, which has 12 cells. -/
theorem C1_offset_schedule_witness :
    (z_vals cfgDefault).length = (total cfgDefault).toNat
    ∧ (∀ i : ℕ, i < (total cfgDefault).toNat →
        (z_vals cfgDefault).getD i 0
          = round3 (cfgDefault.z_min
              + (i : ℚ) * (cfgDefault.z_max - cfgDefault.z_min)
              / ((total cfgDefault : ℚ) - 1)))
    ∧ (cfgDefault.z_min ≤ cfgDefault.z_max → ∀ i j : ℕ, i ≤ j →
        j < (total cfgDefault).toNat →
        (z_vals cfgDefault).getD i 0 ≤ (z_vals cfgDefault).getD j 0)
    ∧ (cfgDefault.z_max ≤ cfgDefault.z_min → ∀ i j : ℕ, i ≤ j →
        j < (total cfgDefault).toNat →
        (z_vals cfgDefault).getD j 0 ≤ (z_vals cfgDefault).getD i 0)
    ∧ (z_vals cfgDefault).getD 0 0 = round3 cfgDefault.z_min
    ∧ (z_vals cfgDefault).getD ((total cfgDefault).toNat - 1) 0
        = round3 cfgDefault.z_max :=
  C1_offset_schedule cfgDefault (by with_unfolding_all decide)

/-- C2: for every valid configuration the successful build emits exactly
columns * rows * layers * 4 extruding toolpath moves and exactly
columns * rows * layers travel moves, one leading travel per layer per
cell. -/
theorem C2_move_counts (cfg : Config) (now : String) (g : List Line)
    (hx : 1 ≤ cfg.x) (hy : 1 ≤ cfg.y) (hcells : 2 ≤ cfg.x * cfg.y)
    (hlayers : 1 ≤ layersOf cfg) (hg : build cfg now = .ok g) :
    (countExtrude g : ℤ) = cfg.x * cfg.y * layersOf cfg * 4
    ∧ (countTravel g : ℤ) = cfg.x * cfg.y * layersOf cfg := by
  obtain rfl : g = buildLines cfg now := build_ok_inv hg
  have hxn : (cfg.x.toNat : ℤ) = cfg.x := Int.toNat_of_nonneg (by omega)
  have hyn : (cfg.y.toNat : ℤ) = cfg.y := Int.toNat_of_nonneg (by omega)
  have hln : ((layersOf cfg).toNat : ℤ) = layersOf cfg :=
    Int.toNat_of_nonneg (by omega)
  constructor
  · rw [countExtrude_buildLines]
    push_cast
    rw [hxn, hyn, hln]
    ring
  · rw [countTravel_buildLines]
    push_cast
    rw [hxn, hyn, hln]
    ring

/-- C2 witness: the default configuration has 4 x 3 cells and 5 layers,
giving 240 extruding moves and 60 travel moves. -/
theorem C2_move_counts_witness :
    (countExtrude (buildLines cfgDefault "T") : ℤ)
        = cfgDefault.x * cfgDefault.y * layersOf cfgDefault * 4
    ∧ (countTravel (buildLines cfgDefault "T") : ℤ)
        = cfgDefault.x * cfgDefault.y * layersOf cfgDefault :=
  C2_move_counts cfgDefault "T" (buildLines cfgDefault "T")
    (by with_unfolding_all decide) (by with_unfolding_all decide)
    (by with_unfolding_all decide) (by with_unfolding_all decide)
    (by with_unfolding_all rfl)

/-- Appending one element extends the intercalate accumulator by the
separator and that element. -/
theorem intercalate_go_append (sep x : String) :
    ∀ (l : List String) (acc : String),
      String.intercalate.go acc sep (l ++ [x])
        = String.intercalate.go acc sep l ++ sep ++ x := by
  intro l
  induction l with
  | nil => intro acc; rfl
  | cons a t ih =>
      intro acc
      rw [List.cons_append]
      show String.intercalate.go (acc ++ sep ++ a) sep (t ++ [x]) = _
      rw [ih]
      rfl

/-- Intercalating a nonempty list with one appended element. -/
theorem intercalate_append_one (sep a x : String) (l : List String) :
    String.intercalate sep ((a :: l) ++ [x])
      = String.intercalate sep (a :: l) ++ sep ++ x := by
  show String.intercalate.go a sep (l ++ [x])
      = String.intercalate.go a sep l ++ sep ++ x
  exact intercalate_go_append sep x l a

/-- A newline-joined list whose last element is x ends in x, with nothing
after it. -/
theorem intercalate_last (x : String) (l : List String) :
    ∃ s : String, String.intercalate "\n" (l ++ [x]) = s ++ x := by
  cases l with
  | nil =>
      refine ⟨"", ?_⟩
      show x = "" ++ x
      simp
  | cons a t =>
      exact ⟨String.intercalate "\n" (a :: t) ++ "\n",
        intercalate_append_one "\n" a x t⟩

/-- The artifact line list ends with the executable block end marker. -/
theorem buildLines_snoc (cfg : Config) (now : String) :
    buildLines cfg now
      = (preheader cfg ++ headerBlock cfg now (layersOf cfg) ++ warmup cfg
          ++ cells cfg
          ++ [Line.raw "G1 Z20 F900", Line.resetE, Line.raw "G1 E-2 F3000",
              Line.raw "G1 F12000", Line.raw "G1 X44", Line.raw "G1 Y270",
              Line.raw "M140 S0", Line.raw "M104 S0", Line.raw "M106 P1 S0",
              Line.raw "M106 P2 S0", Line.raw "M106 P3 S0", Line.raw "M84"])
        ++ [Line.raw "; EXECUTABLE_BLOCK_END"] := by
  simp [buildLines, footer]

/-- C10: whenever generation completes, the output artifact is the
instruction lines joined with single newline characters, its final line is
exactly the executable block end marker, and the text ends at that final
line with no trailing newline after it. -/
theorem C10_output_serialization (cfg : Config) (now : String)
    (g : List Line) (hg : build cfg now = .ok g) :
    outputText cfg now = .ok (String.intercalate "\n" (g.map render))
    ∧ (g.map render).getLast? = some "; EXECUTABLE_BLOCK_END"
    ∧ ∃ s : String,
        String.intercalate "\n" (g.map render)
          = s ++ "; EXECUTABLE_BLOCK_END" := by
  obtain rfl : g = buildLines cfg now := build_ok_inv hg
  refine ⟨?_, ?_, ?_⟩
  · unfold outputText
    rw [hg]
    rfl
  · rw [buildLines_snoc]
    simp [render]
  · rw [buildLines_snoc, List.map_append]
    exact intercalate_last _ _

/-- C10 witness: the serialization property evaluated at the default
configuration. -/
theorem C10_output_witness :
    outputText cfgDefault "T"
        = .ok (String.intercalate "\n"
            ((buildLines cfgDefault "T").map render))
    ∧ ((buildLines cfgDefault "T").map render).getLast?
        = some "; EXECUTABLE_BLOCK_END"
    ∧ ∃ s : String,
        String.intercalate "\n" ((buildLines cfgDefault "T").map render)
          = s ++ "; EXECUTABLE_BLOCK_END" :=
  C10_output_serialization cfgDefault "T" (buildLines cfgDefault "T")
    (by with_unfolding_all rfl)

end BedCal
